import Mathlib

/-!
A shallow embedding of the Schnapsen game engine (`src/schnapsen/game.py` and
`src/schnapsen/bots/rdeep_ML.py`) in Lean 4, together with theorems settling
the claims C1 to C10 about it.

Conventions of the embedding:
* Python's in-place mutation of copied objects is rendered as functional
  updates: every method that mutates a freshly made copy becomes a pure
  function returning the new value.
* A Python `assert` or raised exception is rendered as an `Option` result:
  `none` means the Python code raises at that point, `some` is the value
  produced by a run that completes normally.
* Identity comparison (`is`) on interned `Card`/`Suit`/`Rank` values is value
  equality in Lean.
* The classes `Card`, `Rank` and `Suit` live in `deck.py`, which is not part
  of the sources; they are modelled from the spec (section 3: four suits, five
  ranks JACK/QUEEN/KING/TEN/ACE, value-equal immutable pairs, 20 cards total).
-/

namespace Schnapsen

/-- Modelled from the spec: `Suit` of `deck.py` (absent from the sources) has
four values; the spec does not fix their names or order, so arbitrary
representatives are used. -/
inductive Suit where
  | hearts
  | diamonds
  | clubs
  | spades
deriving DecidableEq, Repr

/-- Modelled from the spec: `Rank` of `deck.py` (absent from the sources);
the game uses the five ranks JACK, QUEEN, KING, TEN, ACE. -/
inductive Rank where
  | jack
  | queen
  | king
  | ten
  | ace
deriving DecidableEq, Repr

/-- Modelled from the spec: a `Card` of `deck.py` is an immutable, value-equal
(suit, rank) pair. -/
structure Card where
  suit : Suit
  rank : Rank
deriving DecidableEq, Repr

/-- `SchnapsenTrickScorer.SCORES` / `rank_to_points` (game.py 1225-1234). -/
def rankToPoints : Rank → Nat
  | Rank.ace => 11
  | Rank.ten => 10
  | Rank.king => 4
  | Rank.queen => 3
  | Rank.jack => 2

/-- `Score` (game.py 380-411): direct points and pending marriage points. -/
structure Score where
  directPoints : Nat
  pendingPoints : Nat
deriving DecidableEq, Repr

/-- `Score.__add__` (game.py 391-400): componentwise addition. -/
def Score.add (a b : Score) : Score :=
  Score.mk (a.directPoints + b.directPoints) (a.pendingPoints + b.pendingPoints)

instance : Add Score := ⟨Score.add⟩

/-- `Score.redeem_pending_points` (game.py 402-408). -/
def Score.redeemPendingPoints (s : Score) : Score :=
  Score.mk (s.directPoints + s.pendingPoints) 0

/-- The leader's part of a trick: Python types it as
`Union[RegularMove, Marriage]` (game.py 349, 1019).  A `Marriage` carries its
queen and king card (game.py 119-151); its structural invariants
(queen rank, king rank, equal suits) are checked where the Python asserts
them. -/
inductive LeaderMove where
  | regular (card : Card)
  | marriage (queenCard kingCard : Card)
deriving DecidableEq, Repr

/-- `Marriage.as_regular_move` (game.py 143-145) composed with the dispatch in
the scorer (game.py 1246-1249): a marriage is represented by its queen, a
regular move by its card. -/
def LeaderMove.asRegularCard : LeaderMove → Card
  | LeaderMove.regular c => c
  | LeaderMove.marriage q _ => q

/-- The `__post_init__` assertions of `Marriage` (game.py 134-138); a regular
move has no structural invariant. -/
def LeaderMove.wf : LeaderMove → Prop
  | LeaderMove.regular _ => True
  | LeaderMove.marriage q k => q.rank = Rank.queen ∧ k.rank = Rank.king ∧ q.suit = k.suit

instance : DecidablePred LeaderMove.wf := by
  intro m
  cases m with
  | regular c => exact isTrue trivial
  | marriage q k => exact inferInstanceAs (Decidable (_ ∧ _ ∧ _))

/-- `RegularTrick` (game.py 359-377): the leader's move and the follower's
regular move (represented by its card, as `RegularMove` wraps one card). -/
structure RegularTrick where
  leaderMove : LeaderMove
  followerMove : Card
deriving DecidableEq, Repr

/-- `Trick` (game.py 295-377): either an `ExchangeTrick` holding the exchanged
jack or a `RegularTrick`. -/
inductive Trick where
  | exchange (jack : Card)
  | regular (rt : RegularTrick)
deriving DecidableEq, Repr

/-- `Trick._cards` (game.py 340-341, 373-374): all cards used in the trick,
including both marriage cards. -/
def Trick.cards : Trick → List Card
  | Trick.exchange j => [j]
  | Trick.regular rt =>
    (match rt.leaderMove with
     | LeaderMove.regular c => [c]
     | LeaderMove.marriage q k => [q, k]) ++ [rt.followerMove]

/-- `BotState` (game.py 422-459) without the opaque agent reference: the agent
implementation never influences the card or score state modelled here. -/
structure BotState where
  hand : List Card
  score : Score
  wonCards : List Card
deriving DecidableEq, Repr

/-- `Talon` (game.py 225-292): the card list (first = top, last = bottom trump
card) and the stored trump suit (`__trump_suit`), which survives emptying. -/
structure Talon where
  cards : List Card
  trumpSuitStored : Suit
deriving DecidableEq, Repr

/-- `GameState` (game.py 477-549).  The Python field
`previous : Optional[Previous]` is rendered by two constructors: `initial` for
`previous = None` and `next` carrying the fields of `Previous`
(game.py 462-474): the prior state, the trick that led here, and whether the
leader remained the leader. -/
inductive GameState where
  | initial (leader follower : BotState) (talon : Talon)
  | next (leader follower : BotState) (talon : Talon)
      (prevState : GameState) (trick : Trick) (leaderRemainedLeader : Bool)
deriving DecidableEq, Repr

def GameState.leader : GameState → BotState
  | GameState.initial l _ _ => l
  | GameState.next l _ _ _ _ _ => l

def GameState.follower : GameState → BotState
  | GameState.initial _ f _ => f
  | GameState.next _ f _ _ _ _ => f

def GameState.talon : GameState → Talon
  | GameState.initial _ _ t => t
  | GameState.next _ _ t _ _ _ => t

/-- The `previous` field as an optional (state, trick, leader-remained) triple. -/
def GameState.previous : GameState → Option (GameState × Trick × Bool)
  | GameState.initial _ _ _ => none
  | GameState.next _ _ _ p t b => some (p, t, b)

/-- Rebuild a state from parts and an optional previous link
(the inverse of the accessors). -/
def GameState.make (leader follower : BotState) (talon : Talon) :
    Option (GameState × Trick × Bool) → GameState
  | none => GameState.initial leader follower talon
  | some (p, t, b) => GameState.next leader follower talon p t b

/-- `GameState.trump_suit` (game.py 495-499): read from the talon. -/
def GameState.trumpSuit (s : GameState) : Suit := s.talon.trumpSuitStored

/-- `GamePhase` (game.py 414-419). -/
inductive GamePhase where
  | one
  | two
deriving DecidableEq, Repr

/-- `GameState.game_phase` (game.py 530-538): TWO iff the talon is empty. -/
def GameState.gamePhase (s : GameState) : GamePhase :=
  if s.talon.cards = [] then GamePhase.two else GamePhase.one

/-- `GameState.are_all_cards_played` (game.py 540-545). -/
def GameState.areAllCardsPlayed (s : GameState) : Bool :=
  s.leader.hand = [] && s.follower.hand = [] && s.talon.cards = []

/-- `SchnapsenTrickScorer.score` (game.py 1244-1280).  The `assert
leader_card != follower_card` (game.py 1253) makes the result `none` when the
two played cards coincide.  Returns `(winner-as-new-leader, loser-as-new-
follower, leader_wins)`. -/
def scoreTrick (rt : RegularTrick) (leader follower : BotState) (trump : Suit) :
    Option (BotState × BotState × Bool) :=
  let leaderCard := rt.leaderMove.asRegularCard
  let followerCard := rt.followerMove
  if leaderCard = followerCard then none
  else
    let leaderCardPoints := rankToPoints leaderCard.rank
    let followerCardPoints := rankToPoints followerCard.rank
    let leaderWins : Bool :=
      if leaderCard.suit = followerCard.suit then
        decide (followerCardPoints < leaderCardPoints)
      else if leaderCard.suit = trump then true
      else if followerCard.suit = trump then false
      else true
    let winner := if leaderWins then leader else follower
    let loser := if leaderWins then follower else leader
    let winner1 := { winner with wonCards := winner.wonCards ++ [leaderCard, followerCard] }
    let winner2 := { winner1 with
        score := (winner1.score + Score.mk (leaderCardPoints + followerCardPoints) 0).redeemPendingPoints }
    some (winner2, loser, leaderWins)

/-- `Move` (game.py 42-151): the tagged union of regular moves, marriages and
trump exchanges, as produced by the move validator. -/
inductive Move where
  | regular (card : Card)
  | marriage (queenCard kingCard : Card)
  | trumpExchange (jack : Card)
deriving DecidableEq, Repr

/-- `SchnapsenMoveValidator.get_legal_leader_moves` (game.py 1120-1134):
every hand card as a regular move, then the trump exchange if the talon is
nonempty and the trump jack is in hand, then a marriage for every queen in
hand whose same-suit king is also in hand. -/
def getLegalLeaderMoves (s : GameState) : List Move :=
  let cardsInHand := s.leader.hand
  let regulars := cardsInHand.map Move.regular
  let trumpJack := Card.mk s.trumpSuit Rank.jack
  let exchanges :=
    if s.talon.cards ≠ [] ∧ trumpJack ∈ cardsInHand then [Move.trumpExchange trumpJack] else []
  let marriages :=
    (cardsInHand.filter (fun c => c.rank = Rank.queen)).filterMap (fun q =>
      if Card.mk q.suit Rank.king ∈ cardsInHand then
        some (Move.marriage q (Card.mk q.suit Rank.king))
      else none)
  regulars ++ exchanges ++ marriages

/-- `SchnapsenMoveValidator.get_legal_follower_moves` (game.py 1151-1196).
The partial trick is the leader's move (`Union[RegularMove, Marriage]`); a
marriage contributes its queen as the card to beat.  In phase ONE any hand
card is legal; in phase TWO: strictly-higher same-suit cards if any, else the
lower same-suit cards if any (the `AssertionError` branch where the same-suit
cards are neither higher nor lower is unreachable and rendered as `[]`), else
the trump cards if the leader card is not trump and trumps are held, else the
whole hand. -/
def getLegalFollowerMoves (s : GameState) (partialTrick : LeaderMove) : List Move :=
  let hand := s.follower.hand
  let leaderCard :=
    match partialTrick with
    | LeaderMove.marriage q _ => q
    | LeaderMove.regular c => c
  if s.gamePhase = GamePhase.one then hand.map Move.regular
  else
    let leaderCardScore := rankToPoints leaderCard.rank
    let sameSuitCards := hand.filter (fun c => c.suit = leaderCard.suit)
    if sameSuitCards ≠ [] then
      let higherSameSuit := sameSuitCards.filter (fun c => leaderCardScore < rankToPoints c.rank)
      let lowerSameSuit := sameSuitCards.filter (fun c => ¬ leaderCardScore < rankToPoints c.rank)
      if higherSameSuit ≠ [] then higherSameSuit.map Move.regular
      else if lowerSameSuit ≠ [] then lowerSameSuit.map Move.regular
      else []
    else
      let trumpCards := hand.filter (fun c => c.suit = s.trumpSuit)
      if leaderCard.suit ≠ s.trumpSuit ∧ trumpCards ≠ [] then trumpCards.map Move.regular
      else hand.map Move.regular

/-- The outcome of `SchnapsenTrickScorer.declare_winner` (game.py 1282-1310):
a winner with game points, no winner yet, or the `AssertionError` raised when
the follower reached 66 first. -/
inductive DeclareResult where
  | winnerIs (bot : BotState) (gamePoints : Nat)
  | noWinner
  | inconsistent
deriving DecidableEq, Repr

/-- `SchnapsenTrickScorer.declare_winner` (game.py 1282-1310). -/
def declareWinner (s : GameState) : DeclareResult :=
  if 66 ≤ s.leader.score.directPoints then
    let followerScore := s.follower.score.directPoints
    if followerScore = 0 then DeclareResult.winnerIs s.leader 3
    else if 33 ≤ followerScore then DeclareResult.winnerIs s.leader 1
    else DeclareResult.winnerIs s.leader 2
  else if 66 ≤ s.follower.score.directPoints then DeclareResult.inconsistent
  else if s.areAllCardsPlayed then DeclareResult.winnerIs s.leader 1
  else DeclareResult.noWinner

/-- `SchnapsenTrickScorer.marriage` (game.py 1236-1242), reduced to the data
it reads: the suit of the marriage (`Marriage.suit`, i.e. the queen's suit)
and the trump suit.  40 pending points for a royal marriage, else 20. -/
def trickScorerMarriage (marriageSuit trump : Suit) : Score :=
  if marriageSuit = trump then Score.mk 0 40 else Score.mk 0 20

/-- `Talon.trump_exchange` (game.py 252-267): requires a jack, at least two
cards on the talon and a suit matching the bottom card; removes the bottom
card (the old trump) and appends the jack; returns the old trump and the
changed talon. -/
def talonTrumpExchange (t : Talon) (newTrump : Card) : Option (Card × Talon) :=
  if newTrump.rank ≠ Rank.jack then none
  else if t.cards.length < 2 then none
  else
    match t.cards.getLast? with
    | none => none
    | some oldTrump =>
      if newTrump.suit ≠ oldTrump.suit then none
      else some (oldTrump, { t with cards := t.cards.dropLast ++ [newTrump] })

/-- The trump-exchange branch of
`SchnapsenTrickImplementer.play_trick_with_fixed_leader_move` combined with
`play_trump_exchange` (game.py 1009-1016, 1065-1073): the jack must be of the
trump suit and in the leader's hand; it is removed, exchanged on the talon,
and the old trump card added to the leader's hand (`Hand.add` asserts the
hand stays within its capacity of 5).  The previous link records an
`ExchangeTrick` with the leader remaining leader. -/
def playTrumpExchangeStep (s : GameState) (jack : Card) : Option GameState :=
  if jack.suit ≠ s.trumpSuit then none
  else if jack ∉ s.leader.hand then none
  else
    match talonTrumpExchange s.talon jack with
    | none => none
    | some (oldTrump, talon1) =>
      let handAfterRemove := s.leader.hand.erase jack
      if 5 ≤ handAfterRemove.length then none
      else
        some (GameState.next
          { s.leader with hand := handAfterRemove ++ [oldTrump] }
          s.follower talon1 s (Trick.exchange jack) true)

/-- `SchnapsenTrickImplementer._apply_regular_trick` (game.py 1025-1054)
combined with `_play_marriage` (game.py 1075-1077): credit pending marriage
points to the leader, remove the played cards from both hands (`Hand.remove`
raises when a card is absent), score the trick, and, when the talon is
nonempty, draw two cards — winner first, then loser (`Talon.draw_cards`
asserts at least two cards remain).  The previous link records the
`RegularTrick` and the leader-remained flag from the scorer. -/
def applyRegularTrick (s : GameState) (rt : RegularTrick) : Option GameState :=
  if ¬ rt.leaderMove.wf then none
  else
    let leaderScore1 :=
      match rt.leaderMove with
      | LeaderMove.marriage q _ => s.leader.score + trickScorerMarriage q.suit s.trumpSuit
      | LeaderMove.regular _ => s.leader.score
    let regularLeaderCard := rt.leaderMove.asRegularCard
    if regularLeaderCard ∉ s.leader.hand then none
    else if rt.followerMove ∉ s.follower.hand then none
    else
      let leader1 :=
        { s.leader with
            score := leaderScore1
            hand := s.leader.hand.erase regularLeaderCard }
      let follower1 := { s.follower with hand := s.follower.hand.erase rt.followerMove }
      match scoreTrick rt leader1 follower1 s.trumpSuit with
      | none => none
      | some (newLeader, newFollower, leaderRemained) =>
        match s.talon.cards with
        | [] => some (GameState.next newLeader newFollower s.talon
            s (Trick.regular rt) leaderRemained)
        | [_] => none
        | c1 :: c2 :: rest =>
          if 5 ≤ newLeader.hand.length ∨ 5 ≤ newFollower.hand.length then none
          else some (GameState.next
            { newLeader with hand := newLeader.hand ++ [c1] }
            { newFollower with hand := newFollower.hand ++ [c2] }
            { s.talon with cards := rest }
            s (Trick.regular rt) leaderRemained)

/-- `SchnapsenDeckGenerator.get_initial_deck` (game.py 963-971): for every
suit the ranks JACK, QUEEN, KING, TEN, ACE.  The iteration order of the
Python `Suit` enum lives in `deck.py` (absent from the sources); the fixed
suit order below stands in for it. -/
def fullDeckCards : List Card :=
  ([Suit.hearts, Suit.diamonds, Suit.clubs, Suit.spades].map (fun s =>
    [Rank.jack, Rank.queen, Rank.king, Rank.ten, Rank.ace].map (Card.mk s))).flatten

/-- The elements at even indices 0, 2, 4, … of a list. -/
def evenIdx {α : Type} : List α → List α
  | [] => []
  | [a] => [a]
  | a :: _ :: rest => a :: evenIdx rest

/-- The elements at odd indices 1, 3, 5, … of a list. -/
def oddIdx {α : Type} : List α → List α
  | [] => []
  | [_] => []
  | _ :: b :: rest => b :: oddIdx rest

/-- `SchnapsenHandGenerator.generateHands` (game.py 980-987): the cards at
indices 0,2,4,6,8 for the first hand, 1,3,5,7,9 for the second, the rest as
the talon. -/
def generateHands (cards : List Card) : List Card × List Card × List Card :=
  (evenIdx (cards.take 10), oddIdx (cards.take 10), cards.drop 10)

/-- The initial `GameState` built by `GamePlayEngine.play_game`
(game.py 1322-1335) from an already shuffled deck: fresh scores and won-card
lists, the talon's trump suit taken from its bottom card (the `Talon`
constructor asserts a trump suit exists, hence `none` on a too-small deck). -/
def initialState (deck : List Card) : Option GameState :=
  match (generateHands deck).2.2.getLast? with
  | none => none
  | some bottom =>
    some (GameState.initial
      (BotState.mk (generateHands deck).1 (Score.mk 0 0) [])
      (BotState.mk (generateHands deck).2.1 (Score.mk 0 0) [])
      (Talon.mk (generateHands deck).2.2 bottom.suit))

/-- The deal of the unshuffled canonical deck (a concrete instance for
witnesses). -/
def initialDealState : GameState :=
  (initialState fullDeckCards).getD
    (GameState.initial (BotState.mk [] (Score.mk 0 0) [])
      (BotState.mk [] (Score.mk 0 0) []) (Talon.mk [] Suit.hearts))

/-- One completed trick of `SchnapsenTrickImplementer`: either the
trump-exchange branch or the regular/marriage branch, each succeeding exactly
when the Python code completes without raising. -/
inductive Step : GameState → GameState → Prop where
  | exchange {s s' : GameState} {jack : Card} :
      playTrumpExchangeStep s jack = some s' → Step s s'
  | regular {s s' : GameState} {rt : RegularTrick} :
      applyRegularTrick s rt = some s' → Step s s'

/-- The states reachable from an initial deal of the shuffled canonical deck
by playing tricks. -/
inductive Reachable : GameState → Prop where
  | deal {deck : List Card} {s : GameState} :
      deck.Perm fullDeckCards → initialState deck = some s → Reachable s
  | step {s s' : GameState} : Reachable s → Step s s' → Reachable s'

/-- Total number of cards held in the hands, the talon and the won-card piles
of a state. -/
def cardCount (s : GameState) : Nat :=
  s.leader.hand.length + s.follower.hand.length + s.talon.cards.length +
    s.leader.wonCards.length + s.follower.wonCards.length

/-- Number of cards in the two hands and the talon of a state (the quantity
claimed about `make_assumption`). -/
def handsTalonCount (s : GameState) : Nat :=
  s.leader.hand.length + s.follower.hand.length + s.talon.cards.length

/-- The role-scoped views (game.py 552-948) reduced to the data they carry:
`LeaderPerspective`, `FollowerPerspective` (with its optional partial trick)
and `ExchangeFollowerPerspective` over a `GameState`.  (`Winner`/`Loser`
perspectives add no data relevant to the claims.) -/
inductive Perspective where
  | leaderP (s : GameState)
  | followerP (s : GameState) (partialTrick : Option LeaderMove)
  | exchangeFollowerP (s : GameState)

/-- The `GameState` wrapped by a perspective (`PlayerPerspective.__game_state`). -/
def Perspective.state : Perspective → GameState
  | Perspective.leaderP s => s
  | Perspective.followerP s _ => s
  | Perspective.exchangeFollowerP s => s

/-- `am_i_leader` (game.py 827-828, 864-865, 917-918). -/
def Perspective.amILeader : Perspective → Bool
  | Perspective.leaderP _ => true
  | Perspective.followerP _ _ => false
  | Perspective.exchangeFollowerP _ => false

/-- The reconstruction of a past perspective in `get_game_history`
(game.py 600-607): the leader view when this bot led, the exchange-follower
view at an exchange trick, otherwise the follower view carrying the trick's
leader move as partial trick. -/
def reconstructPersp (roleLeader : Bool) (s : GameState) (t : Trick) : Perspective :=
  if roleLeader then Perspective.leaderP s
  else
    match t with
    | Trick.exchange _ => Perspective.exchangeFollowerP s
    | Trick.regular rt => Perspective.followerP s (some rt.leaderMove)

/-- The backward walk of `get_game_history` (game.py 589-612), producing the
reconstructed entries in chronological order: at each previous link the role
is updated by `roleBefore = not (roleNow xor leader_remained_leader)`. -/
def histAux : Bool → GameState → List (Perspective × Option Trick)
  | _, GameState.initial _ _ _ => []
  | wasLeader, GameState.next _ _ _ prev t b =>
    let role := !(wasLeader ^^ b)
    histAux role prev ++ [(reconstructPersp role prev t, some t)]

/-- `PlayerPerspective.get_game_history` (game.py 575-612): the reconstructed
past entries followed by the current perspective paired with `none`. -/
def getGameHistory (p : Perspective) : List (Perspective × Option Trick) :=
  histAux p.amILeader p.state ++ [(p, none)]

/-- `PlayerPerspective.__past_tricks_cards` (game.py 707-713): all cards of
all tricks along the previous chain. -/
def pastTrickCards : GameState → List Card
  | GameState.initial _ _ _ => []
  | GameState.next _ _ _ prev t _ => t.cards ++ pastTrickCards prev

/-- `PlayerPerspective.seen_cards` (game.py 687-705): own hand, the visible
trump card (the talon's bottom card, when present) and all past trick cards.
Python builds a set; only membership in it is ever used, so a list suffices. -/
def seenCards (s : GameState) (amILeader : Bool) : List Card :=
  (if amILeader then s.leader else s.follower).hand ++
    (match s.talon.cards.getLast? with
     | some trump => [trump]
     | none => []) ++
    pastTrickCards s

/-- The two filling loops of `make_assumption` (game.py 764-779): walk the
slots (talon cards or opponent-hand cards); a slot holding a card of the
unseen list is filled by popping from the pool, any other slot keeps its
card; `none` when the pool runs dry (Python's `pop` on an empty list).
Python pops from the end of the shuffled list; the pool is passed reversed so
popping is taking the head. -/
def fillSlots (slots unseenSlots pool : List Card) : Option (List Card × List Card) :=
  match slots with
  | [] => some ([], pool)
  | c :: rest =>
    if c ∈ unseenSlots then
      match pool with
      | [] => none
      | p :: ps => (fillSlots rest unseenSlots ps).map (fun r => (p :: r.1, r.2))
    else (fillSlots rest unseenSlots pool).map (fun r => (c :: r.1, r.2))

/-- `PlayerPerspective.make_assumption` (game.py 737-787).  The `rand.shuffle`
of the unseen cards is abstracted by the `shuffle` parameter: the Python code
works for the arbitrary reordering the rng produced.  In phase TWO the state
is returned unchanged (the replacement of the bot implementations has no
counterpart in this model, which carries no bots).  In phase ONE the unseen
talon slots and unseen opponent-hand slots are refilled from the shuffled
pool of unseen cards; the count assertion (game.py 762), the exhaustion
assertion (game.py 785), the `Talon` and `Hand` constructor assertions map to
`none`. -/
def makeAssumption (shuffle : List Card → List Card) (s : GameState)
    (amILeader : Bool) : Option GameState :=
  if s.talon.cards = [] then some s
  else
    let seen := seenCards s amILeader
    let oppHand := (if amILeader then s.follower else s.leader).hand
    let unseenOppHand := oppHand.filter (fun c => decide (c ∉ seen))
    let talonCards := s.talon.cards
    let unseenTalon := talonCards.filter (fun c => decide (c ∉ seen))
    let unseenCards := shuffle (fullDeckCards.filter (fun c => decide (c ∉ seen)))
    if unseenTalon.length + unseenOppHand.length ≠ unseenCards.length then none
    else
      match fillSlots talonCards unseenTalon unseenCards.reverse with
      | none => none
      | some (newTalon, pool1) =>
        match newTalon.getLast? with
        | none => none
        | some bottom =>
          match fillSlots oppHand unseenOppHand pool1 with
          | none => none
          | some (newOppHand, pool2) =>
            if pool2 ≠ [] then none
            else if 5 < newOppHand.length then none
            else
              let talon1 := Talon.mk newTalon bottom.suit
              some (if amILeader then
                  GameState.make s.leader { s.follower with hand := newOppHand }
                    talon1 s.previous
                else
                  GameState.make { s.leader with hand := newOppHand } s.follower
                    talon1 s.previous)

/-- Lines 89-95 of `RdeepMLBot.__evaluate` (rdeep_ML.py): the rollout
heuristic `my_score / (my_score + opponent_score)` on the direct points at
the rollout cutoff.  Python's true division raises `ZeroDivisionError` when
both totals are 0, rendered as `none`. -/
def evaluateHeuristic (myScore opponentScore : Nat) : Option ℚ :=
  if myScore + opponentScore = 0 then none
  else some ((myScore : ℚ) / ((myScore : ℚ) + (opponentScore : ℚ)))

/-- A first trick on the unshuffled deal: the leader plays the jack of
hearts, the follower the ten of hearts (both legal: phase ONE). -/
def exampleFirstTrick : RegularTrick :=
  RegularTrick.mk (LeaderMove.regular (Card.mk Suit.hearts Rank.jack))
    (Card.mk Suit.hearts Rank.ten)

/-- The hands-plus-talon count of the assumption made by the leader right
after the first trick of the unshuffled deal (`none` if any step fails). -/
def assumedCountAfterFirstTrick : Option Nat :=
  ((applyRegularTrick initialDealState exampleFirstTrick).bind
    (fun s1 => makeAssumption id s1 true)).map handsTalonCount

/-- C1: for every regular trick scored by `SchnapsenTrickScorer.score` with
leader card `L`, follower card `F` and trump suit `trump`: the returned
boolean is true iff the old leader won, resolved as: same suit — `L` wins iff
its points are strictly greater than `F`'s; else `L`'s suit trump — leader
wins; else `F`'s suit trump — follower wins; else leader wins.  The returned
pair is ordered (new_leader, new_follower): the winner (with the trick
applied) is the new leader and the loser, unchanged, the new follower. -/
theorem c1_score_winner_resolution
    (rt : RegularTrick) (leader follower : BotState) (trump : Suit)
    (newLeader newFollower : BotState) (leaderWon : Bool)
    (h : scoreTrick rt leader follower trump = some (newLeader, newFollower, leaderWon)) :
    (leaderWon =
      (if (rt.leaderMove.asRegularCard).suit = rt.followerMove.suit then
        decide (rankToPoints rt.followerMove.rank < rankToPoints (rt.leaderMove.asRegularCard).rank)
       else if (rt.leaderMove.asRegularCard).suit = trump then true
       else if rt.followerMove.suit = trump then false
       else true))
    ∧ newFollower = (if leaderWon then follower else leader)
    ∧ newLeader =
        (let winner := if leaderWon then leader else follower
         { winner with
            wonCards := winner.wonCards ++ [rt.leaderMove.asRegularCard, rt.followerMove],
            score := (winner.score +
              Score.mk (rankToPoints (rt.leaderMove.asRegularCard).rank +
                rankToPoints rt.followerMove.rank) 0).redeemPendingPoints }) := by
  unfold scoreTrick at h
  by_cases hc : rt.leaderMove.asRegularCard = rt.followerMove
  · simp [hc] at h
  · simp only [hc, if_false, Option.some.injEq, Prod.mk.injEq] at h
    obtain ⟨h1, h2, h3⟩ := h
    subst h3
    refine ⟨rfl, h2.symm, ?_⟩
    exact h1.symm

/-- Witness for C1 at a concrete trick: leader plays the ten of hearts, the
follower the jack of hearts; the leader wins. -/
theorem c1_score_winner_resolution_witness :
    (scoreTrick
        (RegularTrick.mk (LeaderMove.regular (Card.mk Suit.hearts Rank.ten)) (Card.mk Suit.hearts Rank.jack))
        (BotState.mk [Card.mk Suit.hearts Rank.ten] (Score.mk 0 0) [])
        (BotState.mk [Card.mk Suit.hearts Rank.jack] (Score.mk 0 0) [])
        Suit.clubs =
      some (BotState.mk [Card.mk Suit.hearts Rank.ten] (Score.mk 12 0)
              [Card.mk Suit.hearts Rank.ten, Card.mk Suit.hearts Rank.jack],
            BotState.mk [Card.mk Suit.hearts Rank.jack] (Score.mk 0 0) [],
            true))
    ∧ (true =
      (if (Suit.hearts : Suit) = Suit.hearts then
        decide (rankToPoints Rank.jack < rankToPoints Rank.ten)
       else if (Suit.hearts : Suit) = Suit.clubs then true
       else if (Suit.hearts : Suit) = Suit.clubs then false
       else true)) := by
  constructor
  · decide
  · have h := c1_score_winner_resolution
      (RegularTrick.mk (LeaderMove.regular (Card.mk Suit.hearts Rank.ten)) (Card.mk Suit.hearts Rank.jack))
      (BotState.mk [Card.mk Suit.hearts Rank.ten] (Score.mk 0 0) [])
      (BotState.mk [Card.mk Suit.hearts Rank.jack] (Score.mk 0 0) [])
      Suit.clubs
      (BotState.mk [Card.mk Suit.hearts Rank.ten] (Score.mk 12 0)
        [Card.mk Suit.hearts Rank.ten, Card.mk Suit.hearts Rank.jack])
      (BotState.mk [Card.mk Suit.hearts Rank.jack] (Score.mk 0 0) [])
      true (by decide)
    exact h.1

/-- If a filter keeps nothing, the complementary filter keeps everything. -/
theorem filter_neg_eq_self_of_filter_eq_nil {α : Type} {l : List α} {p : α → Bool}
    (h : l.filter p = []) : l.filter (fun x => !(p x)) = l := by
  rw [List.filter_eq_self]
  intro a ha
  have := List.filter_eq_nil_iff.mp h a ha
  simpa using this

/-- C8: `get_legal_leader_moves` returns exactly one `RegularMove` for each
card in the leader's hand, a `TrumpExchange` iff the talon is nonempty and the
leader holds the jack of the trump suit, and one `Marriage` for each queen in
the leader's hand whose same-suit king is also in the hand. -/
theorem c8_legal_leader_moves (s : GameState) :
    (∀ c, Move.regular c ∈ getLegalLeaderMoves s ↔ c ∈ s.leader.hand)
    ∧ (∀ c, (getLegalLeaderMoves s).count (Move.regular c) = s.leader.hand.count c)
    ∧ (∀ j, Move.trumpExchange j ∈ getLegalLeaderMoves s ↔
        (s.talon.cards ≠ [] ∧ j = Card.mk s.trumpSuit Rank.jack ∧ j ∈ s.leader.hand))
    ∧ (∀ q k, Move.marriage q k ∈ getLegalLeaderMoves s ↔
        (q ∈ s.leader.hand ∧ q.rank = Rank.queen ∧
          k = Card.mk q.suit Rank.king ∧ k ∈ s.leader.hand)) := by
  have hexmem : ∀ m : Move,
      (m ∈ (if s.talon.cards ≠ [] ∧ Card.mk s.trumpSuit Rank.jack ∈ s.leader.hand
            then [Move.trumpExchange (Card.mk s.trumpSuit Rank.jack)] else [])) ↔
        (s.talon.cards ≠ [] ∧ Card.mk s.trumpSuit Rank.jack ∈ s.leader.hand
          ∧ m = Move.trumpExchange (Card.mk s.trumpSuit Rank.jack)) := by
    intro m
    split
    · rename_i hc
      simp [hc.1, hc.2]
    · rename_i hc
      simp only [List.not_mem_nil, false_iff]
      intro hcontra
      exact hc ⟨hcontra.1, hcontra.2.1⟩
  have hmarmem : ∀ m : Move,
      (m ∈ (s.leader.hand.filter (fun c => c.rank = Rank.queen)).filterMap (fun q =>
          if Card.mk q.suit Rank.king ∈ s.leader.hand then
            some (Move.marriage q (Card.mk q.suit Rank.king)) else none)) ↔
        (∃ q, q ∈ s.leader.hand ∧ q.rank = Rank.queen ∧
          Card.mk q.suit Rank.king ∈ s.leader.hand ∧
          m = Move.marriage q (Card.mk q.suit Rank.king)) := by
    intro m
    simp only [List.mem_filterMap, List.mem_filter, decide_eq_true_eq]
    constructor
    · rintro ⟨q, ⟨hqm, hqr⟩, hq⟩
      split at hq
      · rename_i hk
        cases hq
        exact ⟨q, hqm, hqr, hk, rfl⟩
      · cases hq
    · rintro ⟨q, hqm, hqr, hk, rfl⟩
      exact ⟨q, ⟨hqm, hqr⟩, by rw [if_pos hk]⟩
  refine ⟨?_, ?_, ?_, ?_⟩
  · intro c
    unfold getLegalLeaderMoves
    simp only [List.mem_append, List.mem_map, hexmem, hmarmem]
    simp
  · intro c
    unfold getLegalLeaderMoves
    rw [List.count_append, List.count_append]
    have h1 : (List.map Move.regular s.leader.hand).count (Move.regular c) =
        s.leader.hand.count c := by
      rw [List.count_map_of_injective]
      intro a b hab
      cases hab
      rfl
    have h2 : ∀ l : List Move, (∀ m ∈ l, ∀ d : Card, ¬ m = Move.regular d) →
        l.count (Move.regular c) = 0 := by
      intro l hl
      rw [List.count_eq_zero]
      intro hmem
      exact hl _ hmem c rfl
    rw [h1, h2, h2]
    · omega
    · intro m hm d
      rw [hmarmem m] at hm
      obtain ⟨q, _, _, _, rfl⟩ := hm
      simp
    · intro m hm d
      rw [hexmem m] at hm
      obtain ⟨_, _, rfl⟩ := hm
      simp
  · intro j
    unfold getLegalLeaderMoves
    simp only [List.mem_append, List.mem_map, hexmem, hmarmem]
    constructor
    · rintro ((⟨a, _, hac⟩ | ⟨h1, h2, h3⟩) | ⟨q, _, _, _, hq⟩)
      · cases hac
      · cases h3
        exact ⟨h1, rfl, h2⟩
      · cases hq
    · rintro ⟨ht, rfl, hmem⟩
      exact Or.inl (Or.inr ⟨ht, hmem, rfl⟩)
  · intro q k
    unfold getLegalLeaderMoves
    simp only [List.mem_append, List.mem_map, hexmem, hmarmem]
    constructor
    · rintro ((⟨a, _, hac⟩ | ⟨_, _, h3⟩) | ⟨q', hq'm, hq'r, hk', heq⟩)
      · cases hac
      · cases h3
      · cases heq
        exact ⟨hq'm, hq'r, rfl, hk'⟩
    · rintro ⟨hqmem, hqrank, rfl, hkmem⟩
      exact Or.inr ⟨q, hqmem, hqrank, hkmem, rfl⟩

/-- The phase-TWO decision tree of the follower-move validator (with its
higher/lower split of the same-suit cards) returns the full same-suit list
whenever no same-suit card outscores the leader card. -/
theorem followerMovesBranchEq (hand : List Card) (L : Card) (trump : Suit) :
    (let sameSuit := hand.filter (fun c => c.suit = L.suit)
     let higher := sameSuit.filter (fun c => rankToPoints L.rank < rankToPoints c.rank)
     let lower := sameSuit.filter (fun c => ¬ rankToPoints L.rank < rankToPoints c.rank)
     let trumps := hand.filter (fun c => c.suit = trump)
     if sameSuit ≠ [] then
       (if higher ≠ [] then higher.map Move.regular
        else if lower ≠ [] then lower.map Move.regular
        else [])
     else if L.suit ≠ trump ∧ trumps ≠ [] then trumps.map Move.regular
     else hand.map Move.regular) =
    (let sameSuit := hand.filter (fun c => c.suit = L.suit)
     let higher := sameSuit.filter (fun c => rankToPoints L.rank < rankToPoints c.rank)
     let trumps := hand.filter (fun c => c.suit = trump)
     if higher ≠ [] then higher.map Move.regular
     else if sameSuit ≠ [] then sameSuit.map Move.regular
     else if L.suit ≠ trump ∧ trumps ≠ [] then trumps.map Move.regular
     else hand.map Move.regular) := by
  simp only []
  by_cases hss : hand.filter (fun c => c.suit = L.suit) = []
  · have hhi : (hand.filter (fun c => c.suit = L.suit)).filter
        (fun c => rankToPoints L.rank < rankToPoints c.rank) = [] := by
      rw [hss]
      rfl
    rw [if_neg (not_not_intro hss), if_neg (not_not_intro hhi), if_neg (not_not_intro hss)]
  · by_cases hhi : (hand.filter (fun c => c.suit = L.suit)).filter
        (fun c => rankToPoints L.rank < rankToPoints c.rank) = []
    · have hlow : (hand.filter (fun c => c.suit = L.suit)).filter
          (fun c => ¬ rankToPoints L.rank < rankToPoints c.rank) =
          hand.filter (fun c => c.suit = L.suit) := by
        have := filter_neg_eq_self_of_filter_eq_nil
          (l := hand.filter (fun c => c.suit = L.suit))
          (p := fun c => decide (rankToPoints L.rank < rankToPoints c.rank)) hhi
        simpa only [decide_not] using this
      rw [if_pos hss, if_neg (not_not_intro hhi), hlow, if_pos hss,
        if_neg (not_not_intro hhi), if_pos hss]
    · rw [if_pos hss, if_pos hhi, if_pos hhi]

/-- C2: in phase TWO (talon empty), `get_legal_follower_moves` returns exactly
the follower's strictly-higher same-suit cards if any, else all same-suit
cards if any, else the trump cards when the leader card is not trump and
trumps are held, else the whole hand — each as a `RegularMove`, a marriage
counting as its queen. -/
theorem c2_legal_follower_moves_phase_two (s : GameState) (pt : LeaderMove)
    (h : s.talon.cards = []) :
    getLegalFollowerMoves s pt =
      (let hand := s.follower.hand
       let leaderCard :=
         match pt with
         | LeaderMove.marriage q _ => q
         | LeaderMove.regular c => c
       let sameSuit := hand.filter (fun c => c.suit = leaderCard.suit)
       let higher := sameSuit.filter (fun c => rankToPoints leaderCard.rank < rankToPoints c.rank)
       let trumps := hand.filter (fun c => c.suit = s.trumpSuit)
       if higher ≠ [] then higher.map Move.regular
       else if sameSuit ≠ [] then sameSuit.map Move.regular
       else if leaderCard.suit ≠ s.trumpSuit ∧ trumps ≠ [] then trumps.map Move.regular
       else hand.map Move.regular) := by
  have hphase : ¬ s.gamePhase = GamePhase.one := by
    simp [GameState.gamePhase, h]
  cases pt with
  | regular c =>
    simp only [getLegalFollowerMoves]
    rw [if_neg hphase]
    exact followerMovesBranchEq s.follower.hand c s.trumpSuit
  | marriage q k =>
    simp only [getLegalFollowerMoves]
    rw [if_neg hphase]
    exact followerMovesBranchEq s.follower.hand q s.trumpSuit

/-- C3: `declare_winner` awards the leader 3 game points when the follower has
0 direct points, 1 when the follower has at least 33, and 2 otherwise, as
soon as the leader reaches 66 direct points; it fails with the invariant
violation when the follower reaches 66 while the leader has not; it awards the
leader 1 game point when both hands and the talon are empty; and it declares
no winner in every other case. -/
theorem c3_declare_winner (s : GameState) :
    (66 ≤ s.leader.score.directPoints →
       declareWinner s = DeclareResult.winnerIs s.leader
         (if s.follower.score.directPoints = 0 then 3
          else if 33 ≤ s.follower.score.directPoints then 1 else 2))
    ∧ (s.leader.score.directPoints < 66 → 66 ≤ s.follower.score.directPoints →
       declareWinner s = DeclareResult.inconsistent)
    ∧ (s.leader.score.directPoints < 66 → s.follower.score.directPoints < 66 →
       s.leader.hand = [] → s.follower.hand = [] → s.talon.cards = [] →
       declareWinner s = DeclareResult.winnerIs s.leader 1)
    ∧ (s.leader.score.directPoints < 66 → s.follower.score.directPoints < 66 →
       ¬ (s.leader.hand = [] ∧ s.follower.hand = [] ∧ s.talon.cards = []) →
       declareWinner s = DeclareResult.noWinner) := by
  refine ⟨?_, ?_, ?_, ?_⟩
  · intro hl
    unfold declareWinner
    rw [if_pos hl]
    split_ifs <;> simp_all
  · intro hl hf
    unfold declareWinner
    rw [if_neg (by omega), if_pos hf]
  · intro hl hf h1 h2 h3
    unfold declareWinner
    rw [if_neg (by omega), if_neg (by omega), if_pos]
    simp [GameState.areAllCardsPlayed, h1, h2, h3]
  · intro hl hf hne
    unfold declareWinner
    rw [if_neg (by omega), if_neg (by omega), if_neg]
    simp only [GameState.areAllCardsPlayed, Bool.and_eq_true, decide_eq_true_eq]
    intro hcontra
    exact hne ⟨hcontra.1.1, hcontra.1.2, hcontra.2⟩

/-- Witness for C3 at a concrete state: leader on 66 direct points, follower
on 33, so the leader wins with 1 game point. -/
theorem c3_declare_winner_witness :
    (66 ≤ (66 : Nat))
    ∧ declareWinner
        (GameState.initial (BotState.mk [] (Score.mk 66 0) [])
          (BotState.mk [] (Score.mk 33 0) []) (Talon.mk [] Suit.hearts)) =
      DeclareResult.winnerIs
        (GameState.initial (BotState.mk [] (Score.mk 66 0) [])
          (BotState.mk [] (Score.mk 33 0) []) (Talon.mk [] Suit.hearts)).leader
        (if (GameState.initial (BotState.mk [] (Score.mk 66 0) [])
              (BotState.mk [] (Score.mk 33 0) []) (Talon.mk [] Suit.hearts)).follower.score.directPoints = 0
         then 3
         else if 33 ≤ (GameState.initial (BotState.mk [] (Score.mk 66 0) [])
              (BotState.mk [] (Score.mk 33 0) []) (Talon.mk [] Suit.hearts)).follower.score.directPoints
         then 1 else 2) :=
  ⟨by decide,
   (c3_declare_winner
      (GameState.initial (BotState.mk [] (Score.mk 66 0) [])
        (BotState.mk [] (Score.mk 33 0) []) (Talon.mk [] Suit.hearts))).1 (by decide)⟩

/-- Every rank is worth at least 2 points. -/
theorem two_le_rankToPoints (r : Rank) : 2 ≤ rankToPoints r := by
  cases r <;> decide

/-- Unfolding lemma for `Score` addition. -/
theorem Score.add_def (a b : Score) :
    a + b = Score.mk (a.directPoints + b.directPoints) (a.pendingPoints + b.pendingPoints) :=
  rfl

/-- Characterisation of a successful `scoreTrick`: the new leader is the
winner with the trick applied, the new follower the loser unchanged. -/
theorem scoreTrick_spec {rt : RegularTrick} {leader follower : BotState} {trump : Suit}
    {nl nf : BotState} {w : Bool}
    (h : scoreTrick rt leader follower trump = some (nl, nf, w)) :
    nl = (let winner := if w then leader else follower
          { winner with
              wonCards := winner.wonCards ++ [rt.leaderMove.asRegularCard, rt.followerMove],
              score := (winner.score +
                Score.mk (rankToPoints (rt.leaderMove.asRegularCard).rank +
                  rankToPoints rt.followerMove.rank) 0).redeemPendingPoints })
    ∧ nf = (if w then follower else leader) := by
  unfold scoreTrick at h
  by_cases hc : rt.leaderMove.asRegularCard = rt.followerMove
  · simp [hc] at h
  · simp only [hc, if_false, Option.some.injEq, Prod.mk.injEq] at h
    obtain ⟨h1, h2, h3⟩ := h
    subst h3
    exact ⟨h1.symm, h2.symm⟩

/-- A successful `scoreTrick` preserves the total hand count and adds the two
played cards to the won piles. -/
theorem scoreTrick_counts {rt : RegularTrick} {leader follower : BotState} {trump : Suit}
    {nl nf : BotState} {w : Bool}
    (h : scoreTrick rt leader follower trump = some (nl, nf, w)) :
    nl.hand.length + nf.hand.length = leader.hand.length + follower.hand.length
    ∧ nl.wonCards.length + nf.wonCards.length =
        leader.wonCards.length + follower.wonCards.length + 2 := by
  obtain ⟨h1, h2⟩ := scoreTrick_spec h
  subst h1
  subst h2
  cases w <;> simp [List.length_append] <;> omega

/-- C5 (amended): for every scored regular trick, the winner's direct points
increase by exactly the sum of the two played cards' point values plus the
winner's pending points at scoring time; the increase is strictly positive;
and the winner's pending points are 0 afterwards. -/
theorem c5_winner_points_amended
    (rt : RegularTrick) (leader follower : BotState) (trump : Suit)
    (newLeader newFollower : BotState) (leaderWon : Bool)
    (h : scoreTrick rt leader follower trump = some (newLeader, newFollower, leaderWon)) :
    (newLeader.score.directPoints =
      (if leaderWon then leader else follower).score.directPoints +
        (rankToPoints (rt.leaderMove.asRegularCard).rank +
          rankToPoints rt.followerMove.rank) +
        (if leaderWon then leader else follower).score.pendingPoints)
    ∧ newLeader.score.pendingPoints = 0
    ∧ (if leaderWon then leader else follower).score.directPoints
        < newLeader.score.directPoints := by
  obtain ⟨h1, _⟩ := scoreTrick_spec h
  subst h1
  have hlp := two_le_rankToPoints (rt.leaderMove.asRegularCard).rank
  have hfp := two_le_rankToPoints rt.followerMove.rank
  cases leaderWon <;>
    simp [Score.add_def, Score.redeemPendingPoints] <;>
    omega

/-- The trick of the C5 counterexample: the leader declares the marriage of
hearts (not trump), the follower answers with the jack of hearts. -/
def c5ExampleTrick : RegularTrick :=
  RegularTrick.mk
    (LeaderMove.marriage (Card.mk Suit.hearts Rank.queen) (Card.mk Suit.hearts Rank.king))
    (Card.mk Suit.hearts Rank.jack)

/-- The state of the C5 counterexample: trump is clubs, the leader holds the
queen and king of hearts, the follower the jack of hearts, two cards remain
on the talon. -/
def c5ExampleState : GameState :=
  GameState.initial
    (BotState.mk [Card.mk Suit.hearts Rank.queen, Card.mk Suit.hearts Rank.king]
      (Score.mk 0 0) [])
    (BotState.mk [Card.mk Suit.hearts Rank.jack] (Score.mk 0 0) [])
    (Talon.mk [Card.mk Suit.spades Rank.ten, Card.mk Suit.clubs Rank.jack] Suit.clubs)

/-- The direct points of the winner (the new leader) after the C5
counterexample trick is applied. -/
def c5WinnerDirectPoints : Option Nat :=
  (applyRegularTrick c5ExampleState c5ExampleTrick).map
    (fun s => s.leader.score.directPoints)

/-- Counterexample to C5 as stated: the leader wins the marriage trick
queen+jack of hearts (card sum 3+2 = 5) but their direct points rise from 0
to 25, because the trick also redeems the 20 pending points the marriage had
just credited — not "exactly the sum of the point values". -/
theorem c5_counterexample :
    c5WinnerDirectPoints = some 25
    ∧ rankToPoints Rank.queen + rankToPoints Rank.jack = 5
    ∧ (25 : Nat) ≠ 0 + (rankToPoints Rank.queen + rankToPoints Rank.jack) := by
  decide

/-- Witness for C5 (amended) at the concrete trick of the counterexample
state: after the marriage credit, the leader enters scoring with 20 pending
points and ends on 0 + 5 + 20 = 25 direct points, 0 pending. -/
theorem c5_winner_points_amended_witness :
    (scoreTrick c5ExampleTrick
        (BotState.mk [Card.mk Suit.hearts Rank.king] (Score.mk 0 20) [])
        (BotState.mk [] (Score.mk 0 0) []) Suit.clubs =
      some (BotState.mk [Card.mk Suit.hearts Rank.king] (Score.mk 25 0)
              [Card.mk Suit.hearts Rank.queen, Card.mk Suit.hearts Rank.jack],
            BotState.mk [] (Score.mk 0 0) [], true))
    ∧ (25 : Nat) = 0 + (rankToPoints Rank.queen + rankToPoints Rank.jack) + 20
    ∧ (0 : Nat) = 0
    ∧ (0 : Nat) < 25 := by
  refine ⟨by decide, ?_, rfl, by decide⟩
  have h := c5_winner_points_amended c5ExampleTrick
    (BotState.mk [Card.mk Suit.hearts Rank.king] (Score.mk 0 20) [])
    (BotState.mk [] (Score.mk 0 0) []) Suit.clubs
    (BotState.mk [Card.mk Suit.hearts Rank.king] (Score.mk 25 0)
      [Card.mk Suit.hearts Rank.queen, Card.mk Suit.hearts Rank.jack])
    (BotState.mk [] (Score.mk 0 0) []) true (by decide)
  simpa using h.1

/-- Witness for C2 at a concrete phase-TWO state: trump is clubs, the leader
led the queen of hearts, the follower holds only the ace of spades — neither
same-suit nor trump, so the whole hand is legal. -/
theorem c2_legal_follower_moves_phase_two_witness :
    getLegalFollowerMoves
      (GameState.initial (BotState.mk [] (Score.mk 0 0) [])
        (BotState.mk [Card.mk Suit.spades Rank.ace] (Score.mk 0 0) [])
        (Talon.mk [] Suit.clubs))
      (LeaderMove.regular (Card.mk Suit.hearts Rank.queen)) =
    [Move.regular (Card.mk Suit.spades Rank.ace)] :=
  (c2_legal_follower_moves_phase_two
    (GameState.initial (BotState.mk [] (Score.mk 0 0) [])
      (BotState.mk [Card.mk Suit.spades Rank.ace] (Score.mk 0 0) [])
      (Talon.mk [] Suit.clubs))
    (LeaderMove.regular (Card.mk Suit.hearts Rank.queen)) rfl).trans (by decide)

@[simp]
theorem GameState.leader_initial (l f : BotState) (t : Talon) :
    (GameState.initial l f t).leader = l := rfl

@[simp]
theorem GameState.follower_initial (l f : BotState) (t : Talon) :
    (GameState.initial l f t).follower = f := rfl

@[simp]
theorem GameState.talon_initial (l f : BotState) (t : Talon) :
    (GameState.initial l f t).talon = t := rfl

@[simp]
theorem GameState.leader_next (l f : BotState) (t : Talon) (p : GameState)
    (tr : Trick) (b : Bool) : (GameState.next l f t p tr b).leader = l := rfl

@[simp]
theorem GameState.follower_next (l f : BotState) (t : Talon) (p : GameState)
    (tr : Trick) (b : Bool) : (GameState.next l f t p tr b).follower = f := rfl

@[simp]
theorem GameState.talon_next (l f : BotState) (t : Talon) (p : GameState)
    (tr : Trick) (b : Bool) : (GameState.next l f t p tr b).talon = t := rfl

/-- Length of the even-index sublist. -/
theorem evenIdx_length {α : Type} : ∀ l : List α, (evenIdx l).length = (l.length + 1) / 2
  | [] => by simp [evenIdx]
  | [_] => by simp [evenIdx]
  | _ :: _ :: rest => by
    simp only [evenIdx, List.length_cons, evenIdx_length rest]
    omega

/-- Length of the odd-index sublist. -/
theorem oddIdx_length {α : Type} : ∀ l : List α, (oddIdx l).length = l.length / 2
  | [] => by simp [oddIdx]
  | [_] => by simp [oddIdx]
  | _ :: _ :: rest => by
    simp only [oddIdx, List.length_cons, oddIdx_length rest]
    omega

/-- A freshly dealt state from a 20-card deck holds 20 cards in total. -/
theorem cardCount_of_initialState {deck : List Card} {s : GameState}
    (hlen : deck.length = 20) (h : initialState deck = some s) : cardCount s = 20 := by
  simp only [initialState, generateHands] at h
  split at h
  · exact Option.noConfusion h
  · injection h with h
    subst h
    simp only [cardCount, GameState.leader_initial, GameState.follower_initial,
      GameState.talon_initial]
    rw [evenIdx_length, oddIdx_length, List.length_take, List.length_drop, hlen]
    decide

/-- The talon of a freshly dealt state is the deck minus its first ten cards. -/
theorem talon_of_initialState {deck : List Card} {s : GameState}
    (h : initialState deck = some s) : s.talon.cards = deck.drop 10 := by
  simp only [initialState, generateHands] at h
  split at h
  · exact Option.noConfusion h
  · injection h with h
    subst h
    rfl

/-- A successful `Talon.trump_exchange` keeps the talon length, which was at
least 2. -/
theorem talonTrumpExchange_parts {t : Talon} {c old : Card} {t1 : Talon}
    (h : talonTrumpExchange t c = some (old, t1)) :
    t1.cards.length = t.cards.length ∧ 2 ≤ t.cards.length := by
  simp only [talonTrumpExchange] at h
  split at h
  · exact Option.noConfusion h
  · split at h
    · exact Option.noConfusion h
    · rename_i hlen
      split at h
      · exact Option.noConfusion h
      · split at h
        · exact Option.noConfusion h
        · injection h with h
          cases h
          refine ⟨?_, by omega⟩
          simp only [List.length_append, List.length_dropLast, List.length_cons,
            List.length_nil]
          omega

/-- A trump-exchange step keeps both the total card count and the talon
length. -/
theorem exchangeStep_parts {s s' : GameState} {jack : Card}
    (h : playTrumpExchangeStep s jack = some s') :
    cardCount s' = cardCount s ∧ s'.talon.cards.length = s.talon.cards.length := by
  simp only [playTrumpExchangeStep] at h
  split at h
  · exact Option.noConfusion h
  · split at h
    · exact Option.noConfusion h
    · rename_i h2
      split at h
      · exact Option.noConfusion h
      · rename_i oldTrump talon1 heq
        split at h
        · exact Option.noConfusion h
        · injection h with h
          subst h
          obtain ⟨hlen, _⟩ := talonTrumpExchange_parts heq
          have hmem : jack ∈ s.leader.hand := not_not.mp h2
          have herase := List.length_erase_of_mem hmem
          have hpos : 0 < s.leader.hand.length := List.length_pos_of_mem hmem
          constructor
          · simp only [cardCount, GameState.leader_next, GameState.follower_next,
              GameState.talon_next, List.length_append, List.length_cons, List.length_nil]
            omega
          · simpa using hlen

/-- A regular-trick step keeps the total card count; the talon either stays
(phase TWO) or shrinks by exactly the two drawn cards. -/
theorem regularStep_parts {s s' : GameState} {rt : RegularTrick}
    (h : applyRegularTrick s rt = some s') :
    cardCount s' = cardCount s ∧
      (s'.talon.cards.length = s.talon.cards.length ∨
        s'.talon.cards.length + 2 = s.talon.cards.length) := by
  simp only [applyRegularTrick] at h
  split at h
  · exact Option.noConfusion h
  · split at h
    · exact Option.noConfusion h
    · rename_i hl
      split at h
      · exact Option.noConfusion h
      · rename_i hf
        have hlmem : rt.leaderMove.asRegularCard ∈ s.leader.hand := not_not.mp hl
        have hfmem : rt.followerMove ∈ s.follower.hand := not_not.mp hf
        have hlerase := List.length_erase_of_mem hlmem
        have hferase := List.length_erase_of_mem hfmem
        have hlpos : 0 < s.leader.hand.length := List.length_pos_of_mem hlmem
        have hfpos : 0 < s.follower.hand.length := List.length_pos_of_mem hfmem
        split at h
        · exact Option.noConfusion h
        · rename_i nl nf b heq
          obtain ⟨hhands, hwon⟩ := scoreTrick_counts heq
          simp at hhands hwon
          split at h
          · rename_i htal
            injection h with h
            subst h
            constructor
            · simp only [cardCount, GameState.leader_next, GameState.follower_next,
                GameState.talon_next]
              omega
            · exact Or.inl rfl
          · exact Option.noConfusion h
          · rename_i c1 c2 rest htal
            split at h
            · exact Option.noConfusion h
            · injection h with h
              subst h
              have htallen : s.talon.cards.length = rest.length + 2 := by
                rw [htal]
                simp
              constructor
              · simp only [cardCount, GameState.leader_next, GameState.follower_next,
                  GameState.talon_next, List.length_append, List.length_cons,
                  List.length_nil]
                simp
                omega
              · refine Or.inr ?_
                simp
                omega

/-- C4: every state reachable from an initial deal by playing tricks (both
the trump-exchange path and the regular/marriage path) holds exactly 20 cards
across the two hands, the talon and the two won-card piles. -/
theorem c4_card_conservation (s : GameState) (h : Reachable s) : cardCount s = 20 := by
  induction h with
  | deal hperm hinit =>
    refine cardCount_of_initialState ?_ hinit
    rw [hperm.length_eq]
    rfl
  | step _ hstep ih =>
    cases hstep with
    | exchange he =>
      rw [(exchangeStep_parts he).1]
      exact ih
    | regular hr =>
      rw [(regularStep_parts hr).1]
      exact ih

/-- Witness for C4 at the deal of the unshuffled canonical deck. -/
theorem c4_card_conservation_witness : cardCount initialDealState = 20 :=
  c4_card_conservation initialDealState
    (Reachable.deal (List.Perm.refl fullDeckCards) (by decide))

/-- A trump exchange offered by the move validator implies a nonempty talon. -/
theorem talon_ne_nil_of_exchange_mem {s : GameState} {j : Card}
    (h : Move.trumpExchange j ∈ getLegalLeaderMoves s) : s.talon.cards ≠ [] := by
  unfold getLegalLeaderMoves at h
  simp only [List.mem_append, List.mem_map, List.mem_filterMap] at h
  rcases h with (⟨a, _, hac⟩ | hex) | ⟨q, _, hq⟩
  · cases hac
  · split at hex
    · rename_i hc
      exact hc.1
    · simp at hex
  · split at hq
    · simp at hq
    · exact Option.noConfusion hq

/-- C10: the talon length of every reachable state is even, so a nonempty
talon holds at least 2 cards; in particular the at-least-2-cards precondition
of `Talon.trump_exchange` holds whenever the validator offers a trump
exchange, and the two-card draw after a trick never exceeds the talon. -/
theorem c10_talon_even (s : GameState) (h : Reachable s) :
    Even s.talon.cards.length
    ∧ (s.talon.cards ≠ [] → 2 ≤ s.talon.cards.length)
    ∧ (∀ j : Card, Move.trumpExchange j ∈ getLegalLeaderMoves s →
        2 ≤ s.talon.cards.length) := by
  have heven : Even s.talon.cards.length := by
    induction h with
    | deal hperm hinit =>
      rw [talon_of_initialState hinit, List.length_drop, hperm.length_eq]
      decide
    | step _ hstep ih =>
      cases hstep with
      | exchange he =>
        rw [(exchangeStep_parts he).2]
        exact ih
      | regular hr =>
        rcases (regularStep_parts hr).2 with heq | heq
        · rw [heq]
          exact ih
        · obtain ⟨k, hk⟩ := ih
          exact ⟨k - 1, by omega⟩
  have hge : s.talon.cards ≠ [] → 2 ≤ s.talon.cards.length := by
    intro hne
    obtain ⟨k, hk⟩ := heven
    have hz : s.talon.cards.length ≠ 0 := by
      simpa [List.length_eq_zero] using hne
    omega
  exact ⟨heven, hge, fun j hj => hge (talon_ne_nil_of_exchange_mem hj)⟩

/-- Witness for C10 at the deal of the unshuffled canonical deck: its talon
is nonempty, hence holds at least 2 cards. -/
theorem c10_talon_even_witness : 2 ≤ initialDealState.talon.cards.length :=
  (c10_talon_even initialDealState
    (Reachable.deal (List.Perm.refl fullDeckCards) (by decide))).2.1 (by decide)

/-- Counterexample to C7 as stated: when both accumulated direct points are 0
the division in `RdeepMLBot.__evaluate` fails (Python raises
`ZeroDivisionError`); the heuristic is not 0.5 — no such fallback exists in
the code. -/
theorem c7_counterexample :
    evaluateHeuristic 0 0 = none ∧ evaluateHeuristic 0 0 ≠ some (1 / 2 : ℚ) := by
  constructor
  · rfl
  · simp [evaluateHeuristic]

/-- C7 (amended): whenever at least one side has accumulated direct points at
the rollout cutoff, the heuristic equals own points divided by the sum of
both; when both totals are 0 the evaluation fails instead of yielding 0.5. -/
theorem c7_heuristic_amended (myScore opponentScore : Nat)
    (h : 0 < myScore + opponentScore) :
    evaluateHeuristic myScore opponentScore =
      some ((myScore : ℚ) / ((myScore : ℚ) + (opponentScore : ℚ))) := by
  unfold evaluateHeuristic
  rw [if_neg (by omega)]

/-- Witness for C7 (amended) at 7 own points against 0. -/
theorem c7_heuristic_amended_witness :
    (0 : Nat) < 7 + 0
    ∧ evaluateHeuristic 7 0 = some (((7 : Nat) : ℚ) / (((7 : Nat) : ℚ) + ((0 : Nat) : ℚ))) :=
  ⟨by decide, c7_heuristic_amended 7 0 (by decide)⟩

/-- Every entry produced by the backward history walk carries a trick. -/
theorem histAux_isSome : ∀ (s : GameState) (r : Bool), ∀ e ∈ histAux r s, e.2.isSome
  | GameState.initial _ _ _, r => by simp [histAux]
  | GameState.next _ _ _ prev tr _, r => by
    intro e he
    simp only [histAux, List.mem_append, List.mem_singleton] at he
    rcases he with he | he
    · exact histAux_isSome prev _ e he
    · rw [he]
      rfl

/-- On a state without a previous link the history walk yields nothing. -/
theorem histAux_eq_nil {s : GameState} (h : s.previous = none) (r : Bool) :
    histAux r s = [] := by
  cases s with
  | initial _ _ _ => rfl
  | next _ _ _ _ _ _ => exact Option.noConfusion h

/-- The reconstructed perspective reports exactly the role it was built for. -/
theorem reconstructPersp_amILeader (r : Bool) (s : GameState) (t : Trick) :
    (reconstructPersp r s t).amILeader = r := by
  cases r <;> cases t <;> simp [reconstructPersp, Perspective.amILeader]

/-- The reconstructed perspective wraps the previous state. -/
theorem reconstructPersp_state (r : Bool) (s : GameState) (t : Trick) :
    (reconstructPersp r s t).state = s := by
  cases r <;> cases t <;> simp [reconstructPersp, Perspective.state]

/-- Unfolding of the history walk over a previous link: the role before is
the XNOR of the role now with the leadership-unchanged flag. -/
theorem histAux_eq_of_previous {s prev : GameState} {t : Trick} {b : Bool}
    (h : s.previous = some (prev, t, b)) (r : Bool) :
    histAux r s =
      histAux (!(r ^^ b)) prev ++ [(reconstructPersp (!(r ^^ b)) prev t, some t)] := by
  cases s with
  | initial _ _ _ => exact Option.noConfusion h
  | next l f tal p' t' b' =>
    injection h with h
    cases h
    rfl

/-- C9: `get_game_history` yields a chronological list of (perspective,
trick) pairs: its last element pairs the current perspective with no trick
and is the only entry without a trick; on a freshly dealt state (no previous
link) the result is that single element; and over a previous link the list is
the history of the reconstructed earlier perspective — whose role is the
current role XNOR the leadership-unchanged flag — with that step's trick
filled in, followed by the current entry. -/
theorem c9_game_history (p : Perspective) :
    ((getGameHistory p).getLast? = some (p, none))
    ∧ (∀ e ∈ (getGameHistory p).dropLast, e.2.isSome)
    ∧ (p.state.previous = none → getGameHistory p = [(p, none)])
    ∧ (∀ prev t b, p.state.previous = some (prev, t, b) →
        (reconstructPersp (!(p.amILeader ^^ b)) prev t).amILeader = (!(p.amILeader ^^ b))
        ∧ getGameHistory p =
            (getGameHistory (reconstructPersp (!(p.amILeader ^^ b)) prev t)).dropLast
              ++ [(reconstructPersp (!(p.amILeader ^^ b)) prev t, some t), (p, none)]) := by
  refine ⟨?_, ?_, ?_, ?_⟩
  · simp [getGameHistory]
  · intro e he
    rw [getGameHistory, List.dropLast_concat] at he
    exact histAux_isSome p.state p.amILeader e he
  · intro h
    simp [getGameHistory, histAux_eq_nil h]
  · intro prev t b h
    refine ⟨reconstructPersp_amILeader _ _ _, ?_⟩
    rw [getGameHistory, getGameHistory, reconstructPersp_state,
      reconstructPersp_amILeader, List.dropLast_concat,
      histAux_eq_of_previous h, List.append_assoc]
    rfl

/-- Witness for C9 on the leader perspective of the fresh unshuffled deal:
the history is the single current entry with no trick. -/
theorem c9_game_history_witness :
    getGameHistory (Perspective.leaderP initialDealState) =
      [(Perspective.leaderP initialDealState, none)] :=
  (c9_game_history (Perspective.leaderP initialDealState)).2.2.1 (by decide)

theorem GameState.make_leader (l f : BotState) (t : Talon)
    (p : Option (GameState × Trick × Bool)) : (GameState.make l f t p).leader = l := by
  cases p with
  | none => rfl
  | some x =>
    obtain ⟨a, b, c⟩ := x
    rfl

theorem GameState.make_follower (l f : BotState) (t : Talon)
    (p : Option (GameState × Trick × Bool)) : (GameState.make l f t p).follower = f := by
  cases p with
  | none => rfl
  | some x =>
    obtain ⟨a, b, c⟩ := x
    rfl

theorem GameState.make_talon (l f : BotState) (t : Talon)
    (p : Option (GameState × Trick × Bool)) : (GameState.make l f t p).talon = t := by
  cases p with
  | none => rfl
  | some x =>
    obtain ⟨a, b, c⟩ := x
    rfl

/-- The filling loop preserves the number of slots. -/
theorem fillSlots_length {unseen : List Card} :
    ∀ (slots pool r q : List Card), fillSlots slots unseen pool = some (r, q) →
      r.length = slots.length := by
  intro slots
  induction slots with
  | nil =>
    intro pool r q h
    simp only [fillSlots, Option.some.injEq, Prod.mk.injEq] at h
    rw [← h.1]
  | cons a rest ih =>
    intro pool r q h
    simp only [fillSlots] at h
    split at h
    · split at h
      · exact Option.noConfusion h
      · rename_i p ps
        cases hrec : fillSlots rest unseen ps with
        | none =>
          rw [hrec] at h
          exact Option.noConfusion h
        | some pr =>
          obtain ⟨r1, q1⟩ := pr
          rw [hrec] at h
          simp only [Option.map_some', Option.some.injEq, Prod.mk.injEq] at h
          rw [← h.1]
          simp [ih ps r1 q1 hrec]
    · cases hrec : fillSlots rest unseen pool with
      | none =>
        rw [hrec] at h
        exact Option.noConfusion h
      | some pr =>
        obtain ⟨r1, q1⟩ := pr
        rw [hrec] at h
        simp only [Option.map_some', Option.some.injEq, Prod.mk.injEq] at h
        rw [← h.1]
        simp [ih pool r1 q1 hrec]

/-- The filling loop leaves every slot whose card is not in the unseen list
untouched. -/
theorem fillSlots_getElem {unseen : List Card} :
    ∀ (slots pool r q : List Card), fillSlots slots unseen pool = some (r, q) →
      ∀ (i : Nat) (c : Card), slots[i]? = some c → c ∉ unseen → r[i]? = some c := by
  intro slots
  induction slots with
  | nil =>
    intro pool r q h i c hi
    simp at hi
  | cons a rest ih =>
    intro pool r q h i c hi hc
    simp only [fillSlots] at h
    split at h
    · rename_i hmem
      split at h
      · exact Option.noConfusion h
      · rename_i p ps
        cases hrec : fillSlots rest unseen ps with
        | none =>
          rw [hrec] at h
          exact Option.noConfusion h
        | some pr =>
          obtain ⟨r1, q1⟩ := pr
          rw [hrec] at h
          simp only [Option.map_some', Option.some.injEq, Prod.mk.injEq] at h
          rw [← h.1]
          cases i with
          | zero =>
            simp only [List.getElem?_cons_zero, Option.some.injEq] at hi
            exact absurd (hi ▸ hmem) hc
          | succ j =>
            simp only [List.getElem?_cons_succ] at hi ⊢
            exact ih ps r1 q1 hrec j c hi hc
    · cases hrec : fillSlots rest unseen pool with
      | none =>
        rw [hrec] at h
        exact Option.noConfusion h
      | some pr =>
        obtain ⟨r1, q1⟩ := pr
        rw [hrec] at h
        simp only [Option.map_some', Option.some.injEq, Prod.mk.injEq] at h
        rw [← h.1]
        cases i with
        | zero => simpa using hi
        | succ j =>
          simp only [List.getElem?_cons_succ] at hi ⊢
          exact ih pool r1 q1 hrec j c hi hc

/-- A seen card never lies in one of the unseen-slot lists (which are
filtered on not being seen). -/
theorem not_mem_unseen_of_seen {seen : List Card} (l : List Card) (c : Card)
    (hc : c ∈ seen) : c ∉ l.filter (fun x => decide (x ∉ seen)) := by
  intro hmem
  rw [List.mem_filter] at hmem
  exact absurd hc (by simpa using hmem.2)

/-- C6 (amended): `make_assumption` preserves the sizes of the leader hand,
the follower hand and the talon of the real state (so hands+talon counts
20 minus the won cards, not the full 20), keeps every seen card in its slot
(talon position or opponent-hand position), and leaves the perspective's own
bot state unchanged. -/
theorem c6_make_assumption_amended (shuffle : List Card → List Card) (s : GameState)
    (amILeader : Bool) (s' : GameState)
    (h : makeAssumption shuffle s amILeader = some s') :
    (s'.leader.hand.length = s.leader.hand.length
      ∧ s'.follower.hand.length = s.follower.hand.length
      ∧ s'.talon.cards.length = s.talon.cards.length)
    ∧ (∀ (i : Nat) (c : Card), s.talon.cards[i]? = some c →
        c ∈ seenCards s amILeader → s'.talon.cards[i]? = some c)
    ∧ (∀ (i : Nat) (c : Card),
        (if amILeader then s.follower else s.leader).hand[i]? = some c →
        c ∈ seenCards s amILeader →
        (if amILeader then s'.follower else s'.leader).hand[i]? = some c)
    ∧ (if amILeader then s'.leader = s.leader else s'.follower = s.follower) := by
  by_cases hphase : s.talon.cards = []
  · rw [makeAssumption, if_pos hphase] at h
    injection h with h
    subst h
    refine ⟨⟨rfl, rfl, rfl⟩, fun i c hi _ => hi, fun i c hi _ => hi, ?_⟩
    cases amILeader <;> simp
  · rw [makeAssumption, if_neg hphase] at h
    cases amILeader with
    | true =>
      simp only [eq_self_iff_true, if_true] at h ⊢
      split at h
      · exact Option.noConfusion h
      · split at h
        · exact Option.noConfusion h
        · rename_i newTalon pool1 hfillT
          split at h
          · exact Option.noConfusion h
          · rename_i bottom hbot
            split at h
            · exact Option.noConfusion h
            · rename_i newOpp pool2 hfillO
              split at h
              · exact Option.noConfusion h
              · split at h
                · exact Option.noConfusion h
                · injection h with h
                  subst h
                  have hTlen := fillSlots_length _ _ _ _ hfillT
                  have hOlen := fillSlots_length _ _ _ _ hfillO
                  have hTpos := fillSlots_getElem _ _ _ _ hfillT
                  have hOpos := fillSlots_getElem _ _ _ _ hfillO
                  refine ⟨⟨?_, ?_, ?_⟩, ?_, ?_, ?_⟩
                  · rw [GameState.make_leader]
                  · rw [GameState.make_follower]
                    exact hOlen
                  · rw [GameState.make_talon]
                    exact hTlen
                  · intro i c hi hc
                    rw [GameState.make_talon]
                    exact hTpos i c hi (not_mem_unseen_of_seen _ c hc)
                  · intro i c hi hc
                    rw [GameState.make_follower]
                    exact hOpos i c hi (not_mem_unseen_of_seen _ c hc)
                  · rw [GameState.make_leader]
    | false =>
      simp only [Bool.false_eq_true, if_false] at h ⊢
      split at h
      · exact Option.noConfusion h
      · split at h
        · exact Option.noConfusion h
        · rename_i newTalon pool1 hfillT
          split at h
          · exact Option.noConfusion h
          · rename_i bottom hbot
            split at h
            · exact Option.noConfusion h
            · rename_i newOpp pool2 hfillO
              split at h
              · exact Option.noConfusion h
              · split at h
                · exact Option.noConfusion h
                · injection h with h
                  subst h
                  have hTlen := fillSlots_length _ _ _ _ hfillT
                  have hOlen := fillSlots_length _ _ _ _ hfillO
                  have hTpos := fillSlots_getElem _ _ _ _ hfillT
                  have hOpos := fillSlots_getElem _ _ _ _ hfillO
                  refine ⟨⟨?_, ?_, ?_⟩, ?_, ?_, ?_⟩
                  · rw [GameState.make_leader]
                    exact hOlen
                  · rw [GameState.make_follower]
                  · rw [GameState.make_talon]
                    exact hTlen
                  · intro i c hi hc
                    rw [GameState.make_talon]
                    exact hTpos i c hi (not_mem_unseen_of_seen _ c hc)
                  · intro i c hi hc
                    rw [GameState.make_leader]
                    exact hOpos i c hi (not_mem_unseen_of_seen _ c hc)
                  · rw [GameState.make_follower]

/-- Counterexample to C6 as stated: after one trick of the unshuffled deal
(two cards already in the winner's won pile) the leader's assumption holds
5 + 5 + 8 = 18 cards across hands and talon, not the 20 of the full deck. -/
theorem c6_counterexample :
    assumedCountAfterFirstTrick = some 18 ∧ fullDeckCards.length = 20 := by
  constructor
  · decide
  · decide

/-- The state after the first trick of the unshuffled deal. -/
def c6ExampleState : GameState :=
  (applyRegularTrick initialDealState exampleFirstTrick).getD initialDealState

/-- The leader's assumption on that state under the identity shuffle. -/
def c6AssumedState : GameState :=
  (makeAssumption id c6ExampleState true).getD initialDealState

/-- Witness for C6 (amended) on the leader's assumption after the first trick
of the unshuffled deal: the talon keeps its 8 cards. -/
theorem c6_make_assumption_amended_witness :
    makeAssumption id c6ExampleState true = some c6AssumedState
    ∧ c6AssumedState.talon.cards.length = c6ExampleState.talon.cards.length :=
  ⟨by decide,
   (c6_make_assumption_amended id c6ExampleState true c6AssumedState (by decide)).1.2.2⟩

end Schnapsen
